import Mathlib

/-!
Verification of the multi-backend tool registry and dispatcher implemented in
`openai_mcp_hybrid.py` (classes `MCPServerConnection` and `HybridToolSystem`),
together with the result-normalization code of `langchain_mcp_dynamic.py`
(`call_mcp_tool`).  Each Python operation is embedded as an executable Lean
function; Python dicts become insertion-ordered association lists, exceptions
become explicit error values, and the remote server behind a connection is an
explicit description of what its connect and close operations return.
-/

namespace HybridMCP

/-- JSON-schema values are opaque to the registry.  `emptyObject` stands for the
literal empty-object schema that `add_mcp_server` substitutes when a remote tool
declares no `inputSchema` (line 105 of `openai_mcp_hybrid.py`). -/
inductive Schema where
  | emptyObject
  | json (raw : String)
  deriving DecidableEq, Repr

/-- Tool-call arguments: a JSON object, modelled as opaque key/value pairs. -/
abbrev Args := List (String × String)

/-- A native tool handler: the Python coroutine stored in `native_tools`,
composed with the `str(...)` conversion done by `execute_tool`. -/
abbrev Handler := Args → String

/-- One entry of `HybridToolSystem.all_tools` (source lines 78-85 and 107-116):
an OpenAI-format function descriptor.  `mcp` holds the `_mcp_server` and
`_mcp_original_name` metadata fields when present. -/
structure ToolDef where
  name : String
  description : String
  parameters : Schema
  mcp : Option (String × String)
  deriving DecidableEq, Repr

/-- A tool advertised by a remote MCP server via `list_tools`. -/
structure RemoteTool where
  name : String
  description : String
  inputSchema : Option Schema
  deriving DecidableEq, Repr

/-- Embedding of `MCPServerConnection` (source lines 18-61).  `sessionSet` and
`stackSet` record whether `self.session` and `self.stack` are non-`None`;
`transportClosed` records whether `stack.aclose()` has run.  `closeBehavior` is
the externally determined outcome of `stack.aclose()` (ok, or the exception it
raises). -/
structure MCPServerConnection where
  name : String
  sessionSet : Bool
  stackSet : Bool
  transportClosed : Bool
  closeBehavior : Except String Unit
  tools : List RemoteTool
  deriving Repr

/-- Externally determined behavior of one remote backend: what
`connect` (transport setup, `initialize`, `list_tools`) produces — either the
advertised tool list or the exception it raises — and what closing its
transport does. -/
structure ServerSpec where
  connectResult : Except String (List RemoteTool)
  closeBehavior : Except String Unit
  deriving Repr

/-- Embedding of `HybridToolSystem` state (source lines 67-71): the dict of
connected servers, the dict of native handlers, and the `all_tools` list. -/
structure HybridToolSystem where
  mcp_servers : List (String × MCPServerConnection)
  native_tools : List (String × Handler)
  all_tools : List ToolDef

/-- The freshly constructed system: all three containers empty. -/
def emptySystem : HybridToolSystem := ⟨[], [], []⟩

/-- Python dict key lookup on an insertion-ordered association list. -/
def lookupDict (d : List (String × α)) (k : String) : Option α :=
  (d.find? (fun p => p.1 == k)).map (fun p => p.2)

/-- Python dict assignment `d[k] = v`: replace in place when the key exists
(keeping its position), otherwise append at the end. -/
def dictInsert (d : List (String × α)) (k : String) (v : α) : List (String × α) :=
  if (d.find? (fun p => p.1 == k)).isSome then
    d.map (fun p => if p.1 == k then (k, v) else p)
  else
    d ++ [(k, v)]

/-- The externally visible names currently held in `all_tools`. -/
def registryNames (sys : HybridToolSystem) : List String :=
  sys.all_tools.map (fun t => t.name)

/-- Embedding of `HybridToolSystem.add_native_tool` (source lines 73-86): store
the handler under `name` in `native_tools`, append the descriptor to
`all_tools`.  The source performs no duplicate check and cannot fail. -/
def add_native_tool (sys : HybridToolSystem) (name description : String)
    (parameters : Schema) (function : Handler) : HybridToolSystem :=
  { sys with
    native_tools := dictInsert sys.native_tools name function,
    all_tools := sys.all_tools ++ [⟨name, description, parameters, none⟩] }

/-- The collision test on source line 102:
`tool_name in self.native_tools or any(t['function']['name'] == tool_name for t in self.all_tools)`. -/
def nameTaken (sys : HybridToolSystem) (n : String) : Bool :=
  (lookupDict sys.native_tools n).isSome || sys.all_tools.any (fun t => t.name == n)

/-- The first name candidate for a remote tool (source line 99): prefixed when a
prefix was supplied, otherwise the original name. -/
def candName (pfx : Option String) (t : RemoteTool) : String :=
  match pfx with
  | some p => p ++ "_" ++ t.name
  | none => t.name

/-- The name a remote tool is registered under (source lines 99-103): the
candidate, unless it is already taken, in which case `server_name` is prepended
to the original name — with no further check on that fallback. -/
def resolvedName (sys : HybridToolSystem) (server_name : String)
    (pfx : Option String) (t : RemoteTool) : String :=
  let tool_name := candName pfx t
  if nameTaken sys tool_name then server_name ++ "_" ++ t.name else tool_name

/-- One iteration of the registration loop of `add_mcp_server` (source lines
97-117): resolve the name, substitute the empty-object schema when the remote
tool declares none, tag the description with the server, and append. -/
def registerOne (sys : HybridToolSystem) (server_name : String)
    (pfx : Option String) (t : RemoteTool) : HybridToolSystem :=
  let tool_name := resolvedName sys server_name pfx t
  let parameters := t.inputSchema.getD Schema.emptyObject
  { sys with
    all_tools := sys.all_tools ++
      [⟨tool_name, "[MCP:" ++ server_name ++ "] " ++ t.description,
        parameters, some (server_name, t.name)⟩] }

/-- The `MCPServerConnection` value as it stands right after a successful
`connect` (source lines 28-45): session and stack set, transport live, tool
list populated from `list_tools`. -/
def connectedServer (server_name : String) (spec : ServerSpec)
    (tools : List RemoteTool) : MCPServerConnection :=
  ⟨server_name, true, true, false, spec.closeBehavior, tools⟩

/-- Embedding of `HybridToolSystem.add_mcp_server` (source lines 88-117).
`server.connect()` runs before any field of `self` is touched, so a connect
failure propagates with the system state unchanged (second component holds the
raised exception).  On success the server is stored in `mcp_servers` and every
advertised tool is registered in order. -/
def add_mcp_server (sys : HybridToolSystem) (server_name : String)
    (spec : ServerSpec) (pfx : Option String) :
    HybridToolSystem × Option String :=
  match spec.connectResult with
  | .error e => (sys, some e)
  | .ok tools =>
    let sys1 := { sys with
      mcp_servers :=
        dictInsert sys.mcp_servers server_name (connectedServer server_name spec tools) }
    (tools.foldl (fun s t => registerOne s server_name pfx t) sys1, none)

/-- The scan on source lines 128-134: find the first `all_tools` entry whose
name matches and which carries the `_mcp_server` metadata, returning that
server name and the original tool name. -/
def findMcp : List ToolDef → String → Option (String × String)
  | [], _ => none
  | t :: rest, n =>
    match t.mcp with
    | some so => if t.name == n then some so else findMcp rest n
    | none => findMcp rest n

/-- Observable outcome of `execute_tool`: the native handler ran and its
`str(...)` result is returned; or the call was routed to a remote backend
(server name and original tool name); or the `ValueError` of line 136. -/
inductive ExecOutcome where
  | nativeResult (out : String)
  | remoteCall (serverName originalName : String)
  | unknownTool (msg : String)
  deriving DecidableEq, Repr

/-- Embedding of `HybridToolSystem.execute_tool` (source lines 119-136): native
handlers are consulted first; otherwise the first matching remote descriptor
routes the call; otherwise `ValueError(f"Unknown tool: ...")` is raised. -/
def execute_tool (sys : HybridToolSystem) (tool_name : String)
    (arguments : Args) : ExecOutcome :=
  match lookupDict sys.native_tools tool_name with
  | some f => .nativeResult (f arguments)
  | none =>
    match findMcp sys.all_tools tool_name with
    | some (sn, orig) => .remoteCall sn orig
    | none => .unknownTool ("Unknown tool: " ++ tool_name)

/-- One unit of a remote call result, as inspected by the normalization loops:
the duck-typed `hasattr(content, 'text')` test becomes a tag. -/
inductive ContentItem where
  | text (value : String)
  | other
  deriving DecidableEq, Repr

/-- The accumulation loop shared by both normalizers: collect the `text` field
of every item that has one, in order. -/
def collectTexts : List ContentItem → List String
  | [] => []
  | .text v :: rest => v :: collectTexts rest
  | .other :: rest => collectTexts rest

/-- Result normalization of `MCPServerConnection.call_tool`
(`openai_mcp_hybrid.py` lines 47-56): join the collected texts with newlines —
including when no text item was found, in which case the join of the empty list
is the empty string. -/
def call_tool_normalize (content : List ContentItem) : String :=
  String.intercalate "\n" (collectTexts content)

/-- Result normalization of `call_mcp_tool` (`langchain_mcp_dynamic.py` lines
55-67): join the collected texts with newlines, but fall back to the sentinel
`"No result"` when the collected list is empty. -/
def call_mcp_tool_normalize (content : List ContentItem) : String :=
  let texts := collectTexts content
  if texts.isEmpty then "No result" else String.intercalate "\n" texts

/-- Embedding of `MCPServerConnection.close` (source lines 58-61): when a stack
exists, run `stack.aclose()`; its failure propagates (second component) and
neither `self.session` nor `self.stack` is cleared.  When it succeeds the
transport is closed but both references remain set. -/
def connClose (c : MCPServerConnection) :
    MCPServerConnection × Option String :=
  if c.stackSet then
    match c.closeBehavior with
    | .ok _ => ({ c with transportClosed := true }, none)
    | .error e => (c, some e)
  else (c, none)

/-- Embedding of `HybridToolSystem.close` (source lines 195-198): close each
stored server in insertion order.  The loop body is a bare `await
server.close()`, so the first failure propagates immediately; the result is the
list of servers whose close was attempted, paired with the first raised
exception (server id and cause), if any. -/
def systemClose : List (String × MCPServerConnection) →
    List String × Option (String × String)
  | [] => ([], none)
  | (id, c) :: rest =>
    match (connClose c).2 with
    | some e => ([id], some (id, e))
    | none =>
      let r := systemClose rest
      (id :: r.1, r.2)

/-- A freshly constructed `MCPServerConnection` (source lines 21-26): session
and stack are `None`, no tools. -/
def connInit (name : String) (cb : Except String Unit) : MCPServerConnection :=
  ⟨name, false, false, false, cb, []⟩

/-- A successful `MCPServerConnection.connect` (source lines 28-45): a fresh
stack and session are installed (so any previously closed transport is replaced
by a live one) and the advertised tools stored. -/
def connConnect (c : MCPServerConnection) (listed : List RemoteTool) :
    MCPServerConnection :=
  { c with sessionSet := true, stackSet := true, transportClosed := false,
           tools := listed }

/-- Observable behavior of invoking `MCPServerConnection.call_tool` (source
lines 47-56) in a given connection state: when `self.session` is `None` the
attribute access raises; otherwise the remote call is issued on the session,
`onClosed` recording whether its transport had already been closed. -/
inductive CallOutcome where
  | attempted (onClosed : Bool)
  | attributeError
  deriving DecidableEq, Repr

/-- Embedding of the dispatch behavior of `MCPServerConnection.call_tool`: the
source performs no state check and never mutates the connection, so the state
is returned unchanged. -/
def connCallTool (c : MCPServerConnection) : CallOutcome × MCPServerConnection :=
  if c.sessionSet then (.attempted c.transportClosed, c) else (.attributeError, c)

/-! Helper lemmas about the dictionary model and the registry. -/

theorem lookupDict_append_right (d : List (String × α)) (k : String) (v : α)
    (h : d.find? (fun p => p.1 == k) = none) :
    lookupDict (d ++ [(k, v)]) k = some v := by
  simp [lookupDict, h]

theorem lookupDict_cons (p : String × α) (d : List (String × α)) (k : String) :
    lookupDict (p :: d) k = if p.1 == k then some p.2 else lookupDict d k := by
  cases hp : p.1 == k with
  | true =>
    rw [if_pos rfl]
    unfold lookupDict
    rw [List.find?_cons_of_pos (p := fun q => q.1 == k) d hp]
    rfl
  | false =>
    rw [if_neg (by simp)]
    unfold lookupDict
    rw [List.find?_cons_of_neg (p := fun q => q.1 == k) d (by simp [hp])]

theorem lookupDict_map_update (d : List (String × α)) (k : String) (v : α)
    (h : (d.find? (fun p => p.1 == k)).isSome = true) :
    lookupDict (d.map (fun p => if p.1 == k then (k, v) else p)) k = some v := by
  induction d with
  | nil => simp at h
  | cons p rest ih =>
    simp only [List.map_cons]
    cases hp : p.1 == k with
    | true =>
      rw [if_pos rfl, lookupDict_cons]
      simp
    | false =>
      rw [if_neg (by simp), lookupDict_cons, if_neg (by simp [hp])]
      apply ih
      rw [List.find?_cons_of_neg _ (by simp [hp])] at h
      exact h

theorem lookupDict_dictInsert_self (d : List (String × α)) (k : String) (v : α) :
    lookupDict (dictInsert d k v) k = some v := by
  unfold dictInsert
  cases h : d.find? (fun p => p.1 == k) with
  | none => simpa [h] using lookupDict_append_right d k v h
  | some q =>
    have hs : (d.find? (fun p => p.1 == k)).isSome = true := by simp [h]
    simpa [h] using lookupDict_map_update d k v hs

theorem not_mem_registryNames_of_nameTaken_false (sys : HybridToolSystem)
    (n : String) (h : nameTaken sys n = false) : n ∉ registryNames sys := by
  intro hmem
  simp only [registryNames, List.mem_map] at hmem
  obtain ⟨t, ht, hname⟩ := hmem
  simp only [nameTaken, Bool.or_eq_false_iff] at h
  have := List.any_eq_false.mp h.2 t ht
  simp [hname] at this

theorem findMcp_eq_none_of_not_mem (ts : List ToolDef) (n : String)
    (h : ∀ t ∈ ts, t.name ≠ n) : findMcp ts n = none := by
  induction ts with
  | nil => rfl
  | cons t rest ih =>
    have hn : (t.name == n) = false := by
      simpa using h t (by simp)
    have hrest : findMcp rest n = none :=
      ih (fun x hx => h x (by simp [hx]))
    cases hm : t.mcp with
    | none => simpa [findMcp, hm] using hrest
    | some so => simpa [findMcp, hm, hn] using hrest

theorem registryNames_add_native (sys : HybridToolSystem)
    (n d : String) (p : Schema) (f : Handler) :
    registryNames (add_native_tool sys n d p f) = registryNames sys ++ [n] := by
  simp [registryNames, add_native_tool]

theorem registryNames_registerOne (sys : HybridToolSystem) (sn : String)
    (pfx : Option String) (t : RemoteTool) :
    registryNames (registerOne sys sn pfx t) =
      registryNames sys ++ [resolvedName sys sn pfx t] := by
  simp [registryNames, registerOne]

/-! Helper lemmas about the two normalizers. -/

/-- The tag test underlying the spec description of normalization: does this
content item carry text. -/
def isTextItem : ContentItem → Bool
  | .text _ => true
  | .other => false

/-- The text carried by a content item, when any. -/
def textValue : ContentItem → Option String
  | .text v => some v
  | .other => none

/-- The normalization rule in the words of the spec, for comparison with the
code: concatenate, in order, the value of every Text-tagged item, joined by a
newline; Other-tagged items are ignored. -/
def specNormalize (content : List ContentItem) : String :=
  String.intercalate "\n" (content.filterMap textValue)

theorem collectTexts_eq_filterMap (content : List ContentItem) :
    collectTexts content = content.filterMap textValue := by
  induction content with
  | nil => rfl
  | cons c rest ih => cases c <;> simp [collectTexts, textValue, ih]

theorem collectTexts_isEmpty_iff (content : List ContentItem) :
    (collectTexts content).isEmpty = !(content.any isTextItem) := by
  induction content with
  | nil => rfl
  | cons c rest ih => cases c <;> simp [collectTexts, isTextItem, ih]

/-! Descriptors appended by the registration fold of add_mcp_server. -/

theorem mem_foldl_registerOne_description (sn : String) (pfx : Option String) :
    ∀ (tools : List RemoteTool) (sys : HybridToolSystem) (d : ToolDef),
      d ∈ (tools.foldl (fun s t => registerOne s sn pfx t) sys).all_tools →
      d ∈ sys.all_tools ∨
        ∃ t ∈ tools, d.description = "[MCP:" ++ sn ++ "] " ++ t.description := by
  intro tools
  induction tools with
  | nil =>
    intro sys d hd
    exact Or.inl hd
  | cons t rest ih =>
    intro sys d hd
    rcases ih (registerOne sys sn pfx t) d hd with h1 | h2
    · simp only [registerOne, List.mem_append, List.mem_singleton] at h1
      rcases h1 with h1a | h1b
      · exact Or.inl h1a
      · exact Or.inr ⟨t, by simp, by rw [h1b]⟩
    · obtain ⟨t', ht', he⟩ := h2
      exact Or.inr ⟨t', by simp [ht'], he⟩

theorem tag_ne_description (sn s : String) :
    "[MCP:" ++ sn ++ "] " ++ s ≠ s := by
  intro h
  have hlen := congrArg String.length h
  rw [String.length_append, String.length_append, String.length_append] at hlen
  have h5 : ("[MCP:" : String).length = 5 := rfl
  have h2 : ("] " : String).length = 2 := rfl
  omega

/-! Claim theorems. -/

/-- C6 counterexample.  The claim says a second native registration under an
already-present name fails with DuplicateName and does not succeed.  In the
code `add_native_tool` performs no duplicate check and cannot fail: registering
the name "f" twice succeeds, silently overwrites the stored handler (the lookup
now runs the second handler), and leaves two descriptors named "f" in
`all_tools`. -/
theorem c6_counterexample :
    let sys := add_native_tool
      (add_native_tool emptySystem "f" "d" Schema.emptyObject (fun _ => "one"))
      "f" "d" Schema.emptyObject (fun _ => "two")
    (lookupDict sys.native_tools "f").map (fun g => g []) = some "two" ∧
      registryNames sys = ["f", "f"] :=
  ⟨rfl, rfl⟩

/-- C6 amended: `add_native_tool` never fails and never checks for duplicates —
for every prior state it installs the handler under the requested name
(overwriting any previous handler) and unconditionally appends one more
descriptor with exactly that name to `all_tools`. -/
theorem c6_add_native_never_fails (sys : HybridToolSystem) (n d : String)
    (p : Schema) (f : Handler) :
    (add_native_tool sys n d p f).all_tools =
        sys.all_tools ++ [⟨n, d, p, none⟩] ∧
      lookupDict (add_native_tool sys n d p f).native_tools n = some f :=
  ⟨rfl, lookupDict_dictInsert_self sys.native_tools n f⟩

/-- C6 amended witness: registering a native "g" on the empty system appends
its descriptor and makes its handler retrievable. -/
theorem c6_add_native_never_fails_witness :
    (add_native_tool emptySystem "g" "d" Schema.emptyObject
        (fun _ => "v")).all_tools =
        emptySystem.all_tools ++ [⟨"g", "d", Schema.emptyObject, none⟩] ∧
      lookupDict (add_native_tool emptySystem "g" "d" Schema.emptyObject
        (fun _ => "v")).native_tools "g" = some (fun _ => "v") :=
  c6_add_native_never_fails emptySystem "g" "d" Schema.emptyObject (fun _ => "v")

/-- C7: when the connect phase of `add_mcp_server` fails (connecting or listing
tools raises), the exception propagates before any field of the system is
touched: the returned state is exactly the previous state — the session is not
stored in `mcp_servers` and no tool is registered. -/
theorem c7_connect_failure_changes_nothing (sys : HybridToolSystem)
    (sn : String) (spec : ServerSpec) (pfx : Option String) (e : String)
    (h : spec.connectResult = Except.error e) :
    add_mcp_server sys sn spec pfx = (sys, some e) := by
  unfold add_mcp_server
  rw [h]

/-- C7 witness: a concrete backend whose connect raises "boom" leaves the empty
system unchanged and surfaces the error. -/
theorem c7_connect_failure_changes_nothing_witness :
    add_mcp_server emptySystem "s" ⟨Except.error "boom", Except.ok ()⟩ none =
      (emptySystem, some "boom") :=
  c7_connect_failure_changes_nothing emptySystem "s"
    ⟨Except.error "boom", Except.ok ()⟩ none "boom" rfl

/-- C8: for a name that is neither a native tool nor the name of any registered
descriptor, `execute_tool` raises the `ValueError` naming the requested tool
(source line 136); the failure is the returned outcome, not swallowed. -/
theorem c8_unknown_tool_error (sys : HybridToolSystem) (n : String)
    (args : Args) (h1 : lookupDict sys.native_tools n = none)
    (h2 : n ∉ registryNames sys) :
    execute_tool sys n args = ExecOutcome.unknownTool ("Unknown tool: " ++ n) := by
  have h3 : findMcp sys.all_tools n = none := by
    apply findMcp_eq_none_of_not_mem
    intro t ht hc
    exact h2 (List.mem_map.mpr ⟨t, ht, hc⟩)
  unfold execute_tool
  rw [h1, h3]

/-- C8 witness: executing "nonexistent" on the empty system yields the
ValueError naming it. -/
theorem c8_unknown_tool_error_witness :
    execute_tool emptySystem "nonexistent" [] =
      ExecOutcome.unknownTool ("Unknown tool: " ++ "nonexistent") :=
  c8_unknown_tool_error emptySystem "nonexistent" [] rfl
    (by simp [registryNames, emptySystem])

/-- C9: native precedence in dispatch.  `execute_tool` consults `native_tools`
first (source line 123), so whenever the name has a registered native handler
the outcome is the handler's `str(...)` result — the remote-descriptor scan is
never reached, so the call is never routed to a backend. -/
theorem c9_native_precedence (sys : HybridToolSystem) (n : String)
    (args : Args) (f : Handler)
    (h : lookupDict sys.native_tools n = some f) :
    execute_tool sys n args = ExecOutcome.nativeResult (f args) := by
  unfold execute_tool
  rw [h]

/-- C9 witness: a system in which the name "s_x" is simultaneously a native
tool and a remote descriptor (reached by registering natives "x" and "s_x" and
then a backend "s" whose tool "x" falls back to the name "s_x").  Dispatching
"s_x" runs the native handler, not the remote route. -/
theorem c9_native_precedence_witness :
    let sys1 := add_native_tool emptySystem "x" "dx" Schema.emptyObject
      (fun _ => "native-x")
    let sys2 := add_native_tool sys1 "s_x" "ds" Schema.emptyObject
      (fun _ => "native-sx")
    let sys3 := (add_mcp_server sys2 "s"
      ⟨Except.ok [⟨"x", "rd", none⟩], Except.ok ()⟩ none).1
    findMcp sys3.all_tools "s_x" = some ("s", "x") ∧
      execute_tool sys3 "s_x" [] = ExecOutcome.nativeResult "native-sx" :=
  ⟨rfl, c9_native_precedence _ "s_x" [] (fun _ => "native-sx") rfl⟩

/-- C10: every descriptor present after `add_mcp_server` either predates the
call or describes one of the newly attached tools, and in the latter case its
externally visible description is the original description prefixed with the
tag "[MCP:sessionId] " — never the original description verbatim. -/
theorem c10_description_tagged (sys : HybridToolSystem) (sn : String)
    (spec : ServerSpec) (pfx : Option String) (tools : List RemoteTool)
    (h : spec.connectResult = Except.ok tools) :
    ∀ d ∈ ((add_mcp_server sys sn spec pfx).1).all_tools,
      d ∈ sys.all_tools ∨
        ∃ t ∈ tools, d.description = "[MCP:" ++ sn ++ "] " ++ t.description ∧
          d.description ≠ t.description := by
  intro d hd
  simp only [add_mcp_server, h] at hd
  rcases mem_foldl_registerOne_description sn pfx tools _ d hd with h1 | h2
  · exact Or.inl h1
  · obtain ⟨t, ht, he⟩ := h2
    exact Or.inr ⟨t, ht, he, by rw [he]; exact tag_ne_description sn t.description⟩

/-- C10 witness: attaching a backend "s" with one tool "x" described "desc"
produces the descriptor described "[MCP:s] desc", which differs from "desc". -/
theorem c10_description_tagged_witness :
    let tools0 : List RemoteTool := [⟨"x", "desc", none⟩]
    let d0 : ToolDef := ⟨"x", "[MCP:s] desc", Schema.emptyObject, some ("s", "x")⟩
    d0 ∈ emptySystem.all_tools ∨
      ∃ t ∈ tools0, d0.description = "[MCP:" ++ "s" ++ "] " ++ t.description ∧
        d0.description ≠ t.description :=
  c10_description_tagged emptySystem "s" ⟨Except.ok [⟨"x", "desc", none⟩], Except.ok ()⟩
    none [⟨"x", "desc", none⟩] rfl
    ⟨"x", "[MCP:s] desc", Schema.emptyObject, some ("s", "x")⟩ (by decide)

theorem nameTaken_update_servers (sys : HybridToolSystem)
    (m : List (String × MCPServerConnection)) (n : String) :
    nameTaken { sys with mcp_servers := m } n = nameTaken sys n := rfl

theorem registryNames_update_servers (sys : HybridToolSystem)
    (m : List (String × MCPServerConnection)) :
    registryNames { sys with mcp_servers := m } = registryNames sys := rfl

/-- C4 counterexample.  The claim says normalization of a result with zero
Text items returns the "no result" sentinel, never the empty string; but the
normalizer of `MCPServerConnection.call_tool` (the hybrid dispatcher path)
joins the empty text list, which is the empty string, on a result consisting of
one non-text item. -/
theorem c4_counterexample :
    call_tool_normalize [ContentItem.other] = "" ∧
      call_tool_normalize [ContentItem.other] ≠ "No result" :=
  ⟨rfl, by decide⟩

/-- C4 amended: both normalizers concatenate, in order, the values of the
Text-tagged items joined by newlines and ignore every other item (they agree
with the spec-worded rule `specNormalize`); the `call_mcp_tool` normalizer of
`langchain_mcp_dynamic.py` additionally substitutes the sentinel "No result"
exactly when no Text item is present, while the hybrid `call_tool` normalizer
has no sentinel and yields the plain (possibly empty) join in every case. -/
theorem c4_normalization (content : List ContentItem) :
    call_tool_normalize content = specNormalize content ∧
      call_mcp_tool_normalize content =
        (if content.any isTextItem then specNormalize content else "No result") := by
  constructor
  · unfold call_tool_normalize specNormalize
    rw [collectTexts_eq_filterMap]
  · show (if (collectTexts content).isEmpty then "No result"
        else String.intercalate "\n" (collectTexts content)) =
      (if content.any isTextItem then specNormalize content else "No result")
    rw [collectTexts_isEmpty_iff, collectTexts_eq_filterMap]
    cases h : content.any isTextItem <;> simp [specNormalize]

/-- C4 amended witness: the spec scenario content, one text item "7" followed
by one non-text item, normalizes to exactly "7" on both paths. -/
theorem c4_normalization_witness :
    call_tool_normalize [ContentItem.text "7", ContentItem.other] =
        specNormalize [ContentItem.text "7", ContentItem.other] ∧
      call_mcp_tool_normalize [ContentItem.text "7", ContentItem.other] =
        (if ([ContentItem.text "7", ContentItem.other]).any isTextItem then
            specNormalize [ContentItem.text "7", ContentItem.other]
          else "No result") :=
  c4_normalization [ContentItem.text "7", ContentItem.other]

/-- C5 counterexample.  The claim says any callTool attempted while the session
is not Open always fails with SessionNotOpen.  In the code, `close` never
clears `self.session`, and `call_tool` performs no state check: after a connect
followed by a close, the session attribute is still set and the call is issued
on the closed transport — it is dispatched, not refused. -/
theorem c5_counterexample :
    let c := (connClose (connConnect (connInit "s" (Except.ok ())) [])).1
    c.transportClosed = true ∧
      (connCallTool c).1 = CallOutcome.attempted true ∧
      (connCallTool c).1 ≠ CallOutcome.attributeError :=
  ⟨rfl, rfl, by decide⟩

/-- C5 amended: before `connect` has run, `call_tool` fails (the attribute
access on the `None` session raises) without issuing any remote call;
`call_tool` never mutates the connection, so it never performs an implicit
reconnect; and after a close the session reference is retained, so a
subsequent `call_tool` is dispatched to the closed transport with no
SessionNotOpen guard anywhere in the code. -/
theorem c5_no_session_state_guard :
    (∀ (n : String) (cb : Except String Unit),
        (connCallTool (connInit n cb)).1 = CallOutcome.attributeError) ∧
      (∀ c : MCPServerConnection, (connCallTool c).2 = c) ∧
      (∀ (n : String) (listed : List RemoteTool),
        (connCallTool
          (connClose (connConnect (connInit n (Except.ok ())) listed)).1).1 =
          CallOutcome.attempted true) := by
  refine ⟨fun n cb => rfl, fun c => ?_, fun n listed => rfl⟩
  unfold connCallTool
  split <;> rfl

/-- C5 amended witness: on a fresh connection, calling before any connect ends
in the attribute failure, not in a dispatched call. -/
theorem c5_no_session_state_guard_witness :
    (connCallTool (connInit "s" (Except.ok ()))).1 = CallOutcome.attributeError :=
  c5_no_session_state_guard.1 "s" (Except.ok ())

/-- C3 counterexample.  The claim says a failure closing one session does not
prevent attempting the others and that failures are aggregated, never raised
mid-loop.  In the code `close` awaits each `server.close()` bare, so when the
first stored session (here "A") raises, the exception propagates immediately
and session "B" is never attempted. -/
theorem c3_counterexample :
    let sysA := (add_mcp_server emptySystem "A"
      ⟨Except.ok [], Except.error "boom"⟩ none).1
    let sysB := (add_mcp_server sysA "B" ⟨Except.ok [], Except.ok ()⟩ none).1
    systemClose sysB.mcp_servers = (["A"], some ("A", "boom")) ∧
      "B" ∉ (systemClose sysB.mcp_servers).1 :=
  ⟨rfl, by decide⟩

/-- C3 amended: `close` walks the stored sessions in insertion order; every
session before the first failing one is closed, the first failure propagates
as the raised exception with its session id, and the sessions after it are not
attempted — there is no aggregation of multiple failures. -/
theorem c3_close_stops_at_first_failure
    (pre : List (String × MCPServerConnection)) (id : String)
    (c : MCPServerConnection) (post : List (String × MCPServerConnection))
    (e : String) (hpre : ∀ p ∈ pre, (connClose p.2).2 = none)
    (hc : (connClose c).2 = some e) :
    systemClose (pre ++ (id, c) :: post) =
      (pre.map (fun p => p.1) ++ [id], some (id, e)) := by
  induction pre with
  | nil => simp [systemClose, hc]
  | cons p rest ih =>
    have hp := hpre p (by simp)
    have hrest := ih (fun q hq => hpre q (by simp [hq]))
    simp only [List.cons_append, systemClose, hp, List.append_eq]
    rw [hrest]
    simp

/-- C3 amended witness: with sessions A (close ok), B (close raises "boom") and
C (close ok) stored in that order, close attempts A and B only and propagates
B's failure; C is never attempted. -/
theorem c3_close_stops_at_first_failure_witness :
    systemClose
      [("A", connectedServer "A" ⟨Except.ok [], Except.ok ()⟩ []),
       ("B", connectedServer "B" ⟨Except.ok [], Except.error "boom"⟩ []),
       ("C", connectedServer "C" ⟨Except.ok [], Except.ok ()⟩ [])] =
      (["A", "B"], some ("B", "boom")) :=
  c3_close_stops_at_first_failure
    [("A", connectedServer "A" ⟨Except.ok [], Except.ok ()⟩ [])] "B"
    (connectedServer "B" ⟨Except.ok [], Except.error "boom"⟩ [])
    [("C", connectedServer "C" ⟨Except.ok [], Except.ok ()⟩ [])] "boom"
    (by intro p hp; simp at hp; rw [hp]; rfl) rfl

/-- C2 counterexample.  The claim says a collision on the fallback name
"sessionId_originalName" makes registration fail with UnresolvableCollision.
In the code the fallback is used without any further check: with natives "t"
and "s_t" present, attaching server "s" whose tool is "t" (no prefix) first
collides on "t", falls back to "s_t", and registers it anyway — the call
reports no error and the registry now holds two descriptors named "s_t". -/
theorem c2_counterexample :
    let sys1 := add_native_tool emptySystem "t" "d1" Schema.emptyObject
      (fun _ => "r1")
    let sys2 := add_native_tool sys1 "s_t" "d2" Schema.emptyObject
      (fun _ => "r2")
    let res := add_mcp_server sys2 "s"
      ⟨Except.ok [⟨"t", "rd", none⟩], Except.ok ()⟩ none
    res.2 = none ∧ registryNames res.1 = ["t", "s_t", "s_t"] :=
  ⟨rfl, rfl⟩

/-- C2 amended: the first candidate is "prefix_original" when a prefix is
given, else the original name; when that candidate is already taken the tool is
registered under "sessionId_original" unconditionally — the registration never
fails, even if the fallback name is itself taken.  The scenario holds: a native
"add_numbers" plus a prefix-less backend "srv" advertising only "add_numbers"
yields the remote name "srv_add_numbers" and a registry of exactly two
entries. -/
theorem c2_fallback_policy :
    (∀ (sys : HybridToolSystem) (sn : String) (spec : ServerSpec)
        (pfx : Option String) (t : RemoteTool),
      spec.connectResult = Except.ok [t] →
      nameTaken sys (candName pfx t) = true →
      (add_mcp_server sys sn spec pfx).2 = none ∧
        registryNames (add_mcp_server sys sn spec pfx).1 =
          registryNames sys ++ [sn ++ "_" ++ t.name]) ∧
      (let sysN := add_native_tool emptySystem "add_numbers" "d"
         Schema.emptyObject (fun _ => "r")
       let res := add_mcp_server sysN "srv"
         ⟨Except.ok [⟨"add_numbers", "rd", none⟩], Except.ok ()⟩ none
       res.2 = none ∧ registryNames res.1 = ["add_numbers", "srv_add_numbers"] ∧
         res.1.all_tools.length = 2) := by
  constructor
  · intro sys sn spec pfx t hok htaken
    constructor
    · simp [add_mcp_server, hok]
    · simp only [add_mcp_server, hok, List.foldl]
      rw [registryNames_registerOne, registryNames_update_servers]
      simp only [resolvedName, nameTaken_update_servers, htaken, if_true]
  · exact ⟨rfl, rfl, rfl⟩

/-- C2 amended witness: the scenario instantiates the general fallback part —
the candidate "add_numbers" is taken by the native tool, so the remote tool is
registered as "srv_add_numbers" and no error is reported. -/
theorem c2_fallback_policy_witness :
    let sysN := add_native_tool emptySystem "add_numbers" "d"
      Schema.emptyObject (fun _ => "r")
    (add_mcp_server sysN "srv"
        ⟨Except.ok [⟨"add_numbers", "rd", none⟩], Except.ok ()⟩ none).2 = none ∧
      registryNames (add_mcp_server sysN "srv"
        ⟨Except.ok [⟨"add_numbers", "rd", none⟩], Except.ok ()⟩ none).1 =
        registryNames (add_native_tool emptySystem "add_numbers" "d"
          Schema.emptyObject (fun _ => "r")) ++ ["srv" ++ "_" ++ "add_numbers"] :=
  c2_fallback_policy.1
    (add_native_tool emptySystem "add_numbers" "d" Schema.emptyObject (fun _ => "r"))
    "srv" ⟨Except.ok [⟨"add_numbers", "rd", none⟩], Except.ok ()⟩ none
    ⟨"add_numbers", "rd", none⟩ rfl rfl

/-! Registration sequences, for reasoning about the registry invariant. -/

/-- One registration step of the system: a native tool add or a remote backend
attach (with the behavior of its server). -/
inductive RegOp where
  | native (name description : String) (parameters : Schema) (function : Handler)
  | remote (server_name : String) (spec : ServerSpec) (pfx : Option String)

/-- Apply one registration step to the system state. -/
def applyOp (sys : HybridToolSystem) : RegOp → HybridToolSystem
  | .native n d p f => add_native_tool sys n d p f
  | .remote sn spec pfx => (add_mcp_server sys sn spec pfx).1

/-- Apply a sequence of registration steps in order. -/
def applyOps (sys : HybridToolSystem) (ops : List RegOp) : HybridToolSystem :=
  ops.foldl applyOp sys

/-- Stepwise safety of one remote batch: whenever a tool's first candidate name
is taken at its point in the loop, the fallback name is free at that point. -/
def safeBatch (sn : String) (pfx : Option String) :
    HybridToolSystem → List RemoteTool → Bool
  | _, [] => true
  | sys, t :: rest =>
    (if nameTaken sys (candName pfx t) then
        !(nameTaken sys (sn ++ "_" ++ t.name))
      else true) &&
      safeBatch sn pfx (registerOne sys sn pfx t) rest

/-- Safety of one registration step: a native add uses a name that is not yet
taken, and a remote attach is either a failed connect (which registers nothing)
or a stepwise-safe batch. -/
def opSafe (sys : HybridToolSystem) : RegOp → Bool
  | .native n _ _ _ => !(nameTaken sys n)
  | .remote sn spec pfx =>
    match spec.connectResult with
    | .error _ => true
    | .ok tools =>
      safeBatch sn pfx
        { sys with mcp_servers :=
            dictInsert sys.mcp_servers sn (connectedServer sn spec tools) }
        tools

/-- Safety of a whole registration sequence, checked state by state. -/
def opsSafe : HybridToolSystem → List RegOp → Bool
  | _, [] => true
  | sys, op :: rest => opSafe sys op && opsSafe (applyOp sys op) rest

theorem nodup_append_singleton {l : List String} {a : String}
    (h : l.Nodup) (ha : a ∉ l) : (l ++ [a]).Nodup := by
  rw [List.nodup_append]
  refine ⟨h, List.nodup_singleton a, fun x hx hxa => ?_⟩
  rw [List.mem_singleton] at hxa
  exact ha (hxa ▸ hx)

theorem resolvedName_not_mem_of_safe (sys : HybridToolSystem) (sn : String)
    (pfx : Option String) (t : RemoteTool)
    (h : (if nameTaken sys (candName pfx t) then
        !(nameTaken sys (sn ++ "_" ++ t.name))
      else true) = true) :
    resolvedName sys sn pfx t ∉ registryNames sys := by
  cases ht : nameTaken sys (candName pfx t) with
  | true =>
    simp only [ht, if_true] at h
    have hf : nameTaken sys (sn ++ "_" ++ t.name) = false := by
      simpa using h
    have he : resolvedName sys sn pfx t = sn ++ "_" ++ t.name := by
      simp [resolvedName, ht]
    rw [he]
    exact not_mem_registryNames_of_nameTaken_false sys _ hf
  | false =>
    have he : resolvedName sys sn pfx t = candName pfx t := by
      simp [resolvedName, ht]
    rw [he]
    exact not_mem_registryNames_of_nameTaken_false sys _ ht

theorem nodup_registerOne (sys : HybridToolSystem) (sn : String)
    (pfx : Option String) (t : RemoteTool)
    (hnd : (registryNames sys).Nodup)
    (hfresh : resolvedName sys sn pfx t ∉ registryNames sys) :
    (registryNames (registerOne sys sn pfx t)).Nodup := by
  rw [registryNames_registerOne]
  exact nodup_append_singleton hnd hfresh

theorem nodup_foldl_registerOne (sn : String) (pfx : Option String) :
    ∀ (tools : List RemoteTool) (sys : HybridToolSystem),
      (registryNames sys).Nodup → safeBatch sn pfx sys tools = true →
      (registryNames
        (tools.foldl (fun s t => registerOne s sn pfx t) sys)).Nodup := by
  intro tools
  induction tools with
  | nil =>
    intro sys h _
    exact h
  | cons t rest ih =>
    intro sys hnd hsafe
    simp only [safeBatch, Bool.and_eq_true] at hsafe
    exact ih (registerOne sys sn pfx t)
      (nodup_registerOne sys sn pfx t hnd
        (resolvedName_not_mem_of_safe sys sn pfx t hsafe.1))
      hsafe.2

theorem nodup_applyOp (sys : HybridToolSystem) (op : RegOp)
    (hnd : (registryNames sys).Nodup) (hsafe : opSafe sys op = true) :
    (registryNames (applyOp sys op)).Nodup := by
  cases op with
  | native n d p f =>
    have hfalse : nameTaken sys n = false := by
      simpa [opSafe] using hsafe
    rw [applyOp, registryNames_add_native]
    exact nodup_append_singleton hnd
      (not_mem_registryNames_of_nameTaken_false sys n hfalse)
  | remote sn spec pfx =>
    cases hok : spec.connectResult with
    | error e =>
      have he : applyOp sys (.remote sn spec pfx) = sys := by
        simp [applyOp, add_mcp_server, hok]
      rw [he]
      exact hnd
    | ok tools =>
      simp only [opSafe, hok] at hsafe
      have he : applyOp sys (.remote sn spec pfx) =
          tools.foldl (fun s t => registerOne s sn pfx t)
            { sys with mcp_servers :=
                dictInsert sys.mcp_servers sn (connectedServer sn spec tools) } := by
        simp [applyOp, add_mcp_server, hok]
      rw [he]
      exact nodup_foldl_registerOne sn pfx tools _ hnd hsafe

theorem nodup_applyOps :
    ∀ (ops : List RegOp) (sys : HybridToolSystem),
      (registryNames sys).Nodup → opsSafe sys ops = true →
      (registryNames (applyOps sys ops)).Nodup := by
  intro ops
  induction ops with
  | nil =>
    intro sys h _
    exact h
  | cons op rest ih =>
    intro sys hnd hs
    simp only [opsSafe, Bool.and_eq_true] at hs
    exact ih (applyOp sys op) (nodup_applyOp sys op hnd hs.1) hs.2

/-- C1 counterexample.  The claim says that for every sequence of
registrations the registry never holds two descriptors with equal name.  But
`add_native_tool` performs no duplicate check: registering the native name "f"
twice leaves `all_tools` holding two descriptors both named "f". -/
theorem c1_counterexample :
    ¬ (registryNames (add_native_tool
        (add_native_tool emptySystem "f" "d" Schema.emptyObject (fun _ => "one"))
        "f" "d" Schema.emptyObject (fun _ => "two"))).Nodup := by
  decide

/-- C1 amended: for every sequence of registrations in which each native add
uses a name not already taken and, in each remote batch, whenever a tool's
first candidate name is taken the fallback name "sessionId_originalName" is
still free at that point, the registry never holds two descriptors with equal
name.  (A duplicate native registration, or a remote batch whose fallback name
is itself taken, does produce duplicates.) -/
theorem c1_registry_nodup (ops : List RegOp)
    (hsafe : opsSafe emptySystem ops = true) :
    (registryNames (applyOps emptySystem ops)).Nodup :=
  nodup_applyOps ops emptySystem List.nodup_nil hsafe

/-- C1 amended witness: a native registration followed by a remote batch that
collides on its first candidate and resolves through the free fallback name is
safe, and the resulting registry has pairwise distinct names. -/
theorem c1_registry_nodup_witness :
    opsSafe emptySystem
        [RegOp.native "add_numbers" "d" Schema.emptyObject (fun _ => "r"),
         RegOp.remote "srv"
           ⟨Except.ok [⟨"add_numbers", "rd", none⟩], Except.ok ()⟩ none] = true ∧
      (registryNames (applyOps emptySystem
        [RegOp.native "add_numbers" "d" Schema.emptyObject (fun _ => "r"),
         RegOp.remote "srv"
           ⟨Except.ok [⟨"add_numbers", "rd", none⟩], Except.ok ()⟩ none])).Nodup :=
  ⟨by decide,
    c1_registry_nodup
      [RegOp.native "add_numbers" "d" Schema.emptyObject (fun _ => "r"),
       RegOp.remote "srv"
         ⟨Except.ok [⟨"add_numbers", "rd", none⟩], Except.ok ()⟩ none]
      (by decide)⟩

end HybridMCP
